import Mathlib

/-!
Verification of the radio-transcriber batch script (`transcribe_only.py`).

The script batch-transcribes `.wav` files found in a directory.  For each
file it looks up station metadata parsed from a CSV file, probes the first
`probe_seconds` of audio with a greedy decode to obtain a mean
log-probability confidence, decides between a greedy and a wider fallback
beam for the full decode, writes the transcript to a dated output file and
deletes the source audio.

This file shallowly embeds the script: the transcription model is a pure
function producing a (lazy, here: finite) list of segments; the batch
runner is rendered as a pure function from inputs to a list of observable
effects (transcribe calls, file writes, file deletions, log lines), so the
temporal claims become statements about the produced effect list.
Floats are modelled as rationals.
-/

/-! ### Module-level defaults

These model the module constants of the script, at their documented
default values (the environment variables are unset). -/

/-- Default probe window in seconds (`WHISPER_PROBE_SECONDS`, default 90). -/
def PROBE_SECONDS_DEF : ℚ := 90

/-- Default good threshold (`WHISPER_THRESH_GOOD`, default -0.80). -/
def THRESH_GOOD_DEF : ℚ := -(8/10)

/-- Default bad threshold (`WHISPER_THRESH_BAD`, default -0.90). -/
def THRESH_BAD_DEF : ℚ := -(9/10)

/-- Default greedy beam size (`WHISPER_GREEDY_BEAM`, default 1). -/
def GREEDY_BEAM_DEF : ℤ := 1

/-- Default fallback beam size (`WHISPER_FALLBACK_BEAM`, default 5). -/
def FALLBACK_BEAM_DEF : ℤ := 5

/-! ### Segments and the transcription service -/

/-- One timed transcript segment as produced by the transcription service.
The script reads `seg.end` and `seg.avg_logprob` through
`getattr(seg, ..., default)`, so those two attributes are modelled as
optional; `seg.text` is accessed directly. -/
structure Segment where
  start : ℚ
  end_ : Option ℚ
  avg_logprob : Option ℚ
  text : String
  deriving DecidableEq

/-- The transcription service: `transcribe(path, language, vad_filter,
beam_size)` returning the full segment sequence as a list
(the script consumes it lazily; laziness is irrelevant for the values). -/
abbrev Service := String → String → Bool → ℤ → List Segment

/-- A single space, the join separator of `full_transcribe`. -/
def sSpace : String := " "

/-- `str.strip()`: remove leading and trailing whitespace.  Implemented
over the character list so that it evaluates by kernel reduction (the
library `String.trim` is defined by well-founded recursion). -/
def pyStrip (s : String) : String :=
  String.mk
    (((s.data.dropWhile Char.isWhitespace).reverse.dropWhile
        Char.isWhitespace).reverse)

/-- `str.upper()` (ASCII case mapping suffices for country codes). -/
def pyUpper (s : String) : String :=
  String.mk (s.data.map Char.toUpper)

/-- `mean_logprob(segments)`: collect each segment's `avg_logprob` when
present and return their arithmetic mean, or the sentinel `-1.5` when no
segment carried a value. -/
def mean_logprob (segments : List Segment) : ℚ :=
  let vals := segments.filterMap (fun s => s.avg_logprob)
  if vals = [] then -(3/2) else vals.sum / (vals.length : ℚ)

/-- The consumption loop of `probe_confidence`: take segments one at a
time; after taking a segment update `elapsed` to its `end` attribute (kept
unchanged when the attribute is absent) and break as soon as
`elapsed and elapsed >= cutoff` holds, i.e. `elapsed` is nonzero (Python
truthiness of a float) and has reached the cutoff.  Returns the list of
segments consumed. -/
def probeTaken (cutoff elapsed : ℚ) : List Segment → List Segment
  | [] => []
  | seg :: rest =>
    let e := seg.end_.getD elapsed
    if e ≠ 0 ∧ cutoff ≤ e then [seg]
    else seg :: probeTaken cutoff e rest

/-- `probe_confidence(model, wav, lang, vad, probe_seconds)`: transcribe
with the module default greedy beam (`GREEDY_BEAM_DEF`), consume segments
until the probe cutoff, and return the mean log-probability of the
consumed segments. -/
def probe_confidence (model : Service) (wav lang : String) (vad : Bool)
    (probe_seconds : ℚ) : ℚ :=
  mean_logprob (probeTaken probe_seconds 0 (model wav lang vad GREEDY_BEAM_DEF))

/-- `full_transcribe(model, wav, lang, vad, beam_size)`: join the stripped
segment texts with single spaces. -/
def full_transcribe (model : Service) (wav lang : String) (vad : Bool)
    (beam_size : ℤ) : String :=
  String.intercalate sSpace ((model wav lang vad beam_size).map (fun s => pyStrip s.text))

namespace DecisionPolicy

/-- The decision step of `main` (the `if conf < args.bad_threshold`
branch): confidences below the bad threshold select the fallback beam with
a floor of 2, all others select the greedy beam with a floor of 1. -/
def decide (confidence bad_threshold : ℚ) (greedy_beam fallback_beam : ℤ) : ℤ :=
  if confidence < bad_threshold then max 2 fallback_beam else max 1 greedy_beam

end DecisionPolicy

/-! ### Station CSV loading -/

/-- The CSV quote character `"` (code 34). -/
def quoteChar : Char := Char.ofNat 34

/-- The CSV field separator `,` (code 44). -/
def commaChar : Char := Char.ofNat 44

/-- The comment marker `#` (code 35). -/
def hashChar : Char := Char.ofNat 35

/-- Lexer state of the CSV field splitter: inside an unquoted field,
inside a quoted field, or just past a closing quote (where a second quote
means a literal quote). -/
inductive CsvState where
  | unquoted
  | quoted
  | afterQuote

/-- Field splitter for one CSV line, modelling `csv.reader`'s default
dialect on a single line: fields are separated by commas, a field may be
quoted with `"`, a doubled quote inside a quoted field is a literal quote,
and a quote not at the start of a field is literal.  Arguments: lexer
state, current field, fields finished so far, remaining input. -/
def csvSplitGo : CsvState → List Char → List (List Char) → List Char → List (List Char)
  | _, cur, acc, [] => acc ++ [cur]
  | CsvState.quoted, cur, acc, c :: rest =>
    if c = quoteChar then csvSplitGo CsvState.afterQuote cur acc rest
    else csvSplitGo CsvState.quoted (cur ++ [c]) acc rest
  | CsvState.afterQuote, cur, acc, c :: rest =>
    if c = quoteChar then csvSplitGo CsvState.quoted (cur ++ [c]) acc rest
    else if c = commaChar then csvSplitGo CsvState.unquoted [] (acc ++ [cur]) rest
    else csvSplitGo CsvState.unquoted (cur ++ [c]) acc rest
  | CsvState.unquoted, cur, acc, c :: rest =>
    if c = commaChar then csvSplitGo CsvState.unquoted [] (acc ++ [cur]) rest
    else if c = quoteChar then
      (if cur = [] then csvSplitGo CsvState.quoted cur acc rest
       else csvSplitGo CsvState.unquoted (cur ++ [c]) acc rest)
    else csvSplitGo CsvState.unquoted (cur ++ [c]) acc rest

/-- `next(csv.reader([s]))` for a nonempty single line `s`. -/
def csvSplit (s : String) : List String :=
  (csvSplitGo CsvState.unquoted [] [] s.data).map (fun cs => String.mk cs)

/-- Parse one raw line of the stations CSV, returning
`(name, lang, cc)` when the line contributes an entry and `none`
otherwise.  Models the body of the reading loop of `load_station_meta`:
strip the line; skip it when blank or starting with `#`; split into
stripped fields; require at least 3 fields; take a 4th field as an
uppercased country code only when it has exactly 2 characters; require
`name` and `lang` to be truthy (nonempty). -/
def parseRow (raw : String) : Option (String × String × String) :=
  if (pyStrip raw).length = 0 then none
  else if (pyStrip raw).data.head? = some hashChar then none
  else
    match (csvSplit (pyStrip raw)).map (fun c => pyStrip c) with
    | name :: _url :: lang :: restCols =>
      let cc :=
        match restCols with
        | c4 :: _ => if c4.length = 2 then pyUpper c4 else String.mk []
        | [] => String.mk []
      if name.length = 0 ∨ lang.length = 0 then none
      else some (name, lang, cc)
    | _ => none

/-- The station mapping: station name to `(lang, cc)`. -/
abbrev StationMap := String → Option (String × String)

/-- One iteration of the `load_station_meta` loop: a line that parses to a
record overwrites the mapping at its name (`meta[name] = (lang, cc)`),
any other line leaves the mapping unchanged. -/
def loadStep (meta : StationMap) (raw : String) : StationMap :=
  match parseRow raw with
  | none => meta
  | some (name, lang, cc) => fun k => if k = name then some (lang, cc) else meta k

/-- `load_station_meta`: fold the per-line step over the file's lines,
starting from the empty mapping. -/
def load_station_meta (lines : List String) : StationMap :=
  lines.foldl loadStep (fun _ => none)

/-! ### The batch runner as an effect trace -/

/-- Observable effects of the per-file loop of `main`:
transcription-service invocations, the transcript write, the source
deletion, and the progress prints (modelled by which line prints them,
not by their formatted text). -/
inductive Effect where
  | transcribeCall (path : String) (beam : ℤ)
  | write (path text : String)
  | delete (path : String)
  | logSkip (station : String)
  | logProgress (station : String)
  | logSaved (fileName : String)
  | logDeleted (fileName : String)
  deriving DecidableEq

/-- Whether an effect is a transcript-file write. -/
def Effect.isWrite : Effect → Bool
  | .write _ _ => true
  | _ => false

/-- Whether an effect is a source-file deletion. -/
def Effect.isDelete : Effect → Bool
  | .delete _ => true
  | _ => false

/-- The parsed command-line arguments that drive the per-file loop. -/
structure Args where
  probe_seconds : ℚ
  good_threshold : ℚ
  bad_threshold : ℚ
  greedy_beam : ℤ
  fallback_beam : ℤ
  no_vad : Bool

/-- The 2-letter placeholder used when a station has no country code. -/
def ccPlaceholder : String := "XX"

/-- The output filename of `main`:
`f"{date_str} - {cc_part} - {station} - Radio.txt"` with
`cc_part = (cc or "XX")` (an empty `cc` is falsy). -/
def out_name_of (dateStr cc station : String) : String :=
  dateStr ++ " - " ++ (if cc.length = 0 then ccPlaceholder else cc) ++ " - " ++
    station ++ " - Radio.txt"

/-- The fixed reference timezone passed to `ZoneInfo` by `main`. -/
def tzAmsterdam : String := "Europe/Amsterdam"

/-- `date_str` of `main`: the current date is formatted in the fixed
reference timezone `Europe/Amsterdam`; `fmtNow tz` abstracts
`datetime.now(ZoneInfo(tz)).strftime("%y%m%d")`. -/
def mainDateStr (fmtNow : String → String) : String := fmtNow tzAmsterdam

/-- The path of a discovered `.wav` file with the given stem inside the
input directory. -/
def wavPathOf (dir stem : String) : String := dir ++ "/" ++ stem ++ ".wav"

/-- The `chosen_beam` of the per-file loop: probe, then decide. -/
def chosen_beam_of (model : Service) (wavPath lang : String) (vad : Bool)
    (args : Args) : ℤ :=
  DecisionPolicy.decide (probe_confidence model wavPath lang vad args.probe_seconds)
    args.bad_threshold args.greedy_beam args.fallback_beam

/-- The transcript text of the per-file loop: the full decode at the
chosen beam. -/
def text_of (model : Service) (wavPath lang : String) (vad : Bool)
    (args : Args) : String :=
  full_transcribe model wavPath lang vad (chosen_beam_of model wavPath lang vad args)

/-- The effects of the per-file loop on a file whose station matched, in
program order: the probe's transcribe call, the progress print, the full
decode's transcribe call, the transcript write into the source directory,
the saved print, the source deletion, the deleted print. -/
def matchedEffects (model : Service) (dateStr dir : String) (args : Args)
    (stem lang cc : String) : List Effect :=
  [Effect.transcribeCall (wavPathOf dir stem) GREEDY_BEAM_DEF,
   Effect.logProgress stem,
   Effect.transcribeCall (wavPathOf dir stem)
     (chosen_beam_of model (wavPathOf dir stem) lang (!args.no_vad) args),
   Effect.write (dir ++ "/" ++ out_name_of dateStr cc stem)
     (text_of model (wavPathOf dir stem) lang (!args.no_vad) args),
   Effect.logSaved (out_name_of dateStr cc stem),
   Effect.delete (wavPathOf dir stem),
   Effect.logDeleted stem]

/-- The body of the per-file loop of `main` for one discovered file with
stem `stem`, rendered as the list of effects it performs: look up the
station (skip with a notice when absent or when the language is falsy,
i.e. empty), otherwise probe, decide, fully transcribe, write, delete. -/
def processOne (model : Service) (meta : StationMap) (dateStr dir : String)
    (args : Args) (stem : String) : List Effect :=
  match meta stem with
  | none => [Effect.logSkip stem]
  | some (lang, cc) =>
    if lang.length = 0 then [Effect.logSkip stem]
    else matchedEffects model dateStr dir args stem lang cc

/-- The whole batch: process each discovered stem in order and
concatenate the effects. -/
def runAll (model : Service) (meta : StationMap) (dateStr dir : String)
    (args : Args) (stems : List String) : List Effect :=
  (stems.map (processOne model meta dateStr dir args)).flatten

/-- A flat filesystem: path to file contents. -/
abbrev FileSystem := String → Option String

/-- Effect semantics on the filesystem: `write_text` overwrites the
target path, `unlink` removes it, everything else leaves files alone. -/
def applyEffect (fs : FileSystem) : Effect → FileSystem
  | .write p t => fun q => if q = p then some t else fs q
  | .delete p => fun q => if q = p then none else fs q
  | _ => fs

/-- Run a list of effects against a filesystem. -/
def applyEffects (fs : FileSystem) (es : List Effect) : FileSystem :=
  es.foldl applyEffect fs

/-- Sequential execution with possible write failure: effects run in
order, and a failing `write_text` raises, aborting the rest of the list
(the write itself does not happen).  Returns the effects that actually
executed. -/
def execTrace (canWrite : String → String → Bool) : List Effect → List Effect
  | [] => []
  | e :: rest =>
    match e with
    | .write p t => if canWrite p t then e :: execTrace canWrite rest else []
    | _ => e :: execTrace canWrite rest

/-! ### Concrete test fixtures (used by witnesses and counterexamples) -/

/-- A segment ending exactly at time 0 (carrying a confidence). -/
def cexSeg0 : Segment := ⟨0, some 0, some (-1), String.mk []⟩

/-- A segment ending at time 1 (carrying a confidence). -/
def cexSeg1 : Segment := ⟨0, some 1, some (-1), String.mk []⟩

/-- Station name fixture. -/
def sA : String := "A"

/-- Language fixture. -/
def sFr : String := "fr"

/-- Date-string fixture. -/
def sDate : String := "250101"

/-- Directory fixture. -/
def sDir : String := "d"

/-- A service producing no segments at all. -/
def svcEmpty : Service := fun _ _ _ _ => []

/-- A service producing one long scored segment. -/
def svcOne : Service := fun _ _ _ _ => [⟨0, some 100, some (-1), sA⟩]

/-- A service producing one long segment with no confidence score. -/
def svcNoScore : Service := fun _ _ _ _ => [⟨0, some 100, none, sA⟩]

/-- A station map with a single entry for `sA`. -/
def metaA : StationMap := fun k => if k = sA then some (sFr, String.mk []) else none

/-- The default command-line arguments. -/
def argsDef : Args :=
  ⟨PROBE_SECONDS_DEF, THRESH_GOOD_DEF, THRESH_BAD_DEF, GREEDY_BEAM_DEF,
    FALLBACK_BEAM_DEF, false⟩

/-- A CSV row with 3 fields whose language field is empty. -/
def c6Row : String := "a,b,"

/-- First duplicate CSV row for station `x`. -/
def c7RowA : String := "x,u,aa"

/-- Second duplicate CSV row for station `x`. -/
def c7RowB : String := "x,u,bb"

/-- Station name of the duplicate rows. -/
def sX : String := "x"

/-- The lowercase station name of `c6Row`. -/
def sLowA : String := "a"

/-- A CSV row with only 2 fields. -/
def c6Short : String := "a,b"

/-- A date formatter returning the fixed date `sDate` for any timezone. -/
def fmtDateFix : String → String := fun _ => sDate

/-! ### Helper lemmas about the probe loop -/

/-- The probe consumes a front portion of the produced segment sequence,
in order: what it took, followed by some remainder, is the sequence. -/
theorem probeTaken_front (cutoff : ℚ) :
    ∀ (l : List Segment) (el : ℚ), ∃ rest, probeTaken cutoff el l ++ rest = l := by
  intro l
  induction l with
  | nil => exact fun el => ⟨[], rfl⟩
  | cons s t ih =>
    intro el
    by_cases h : (s.end_.getD el ≠ 0 ∧ cutoff ≤ s.end_.getD el)
    · exact ⟨t, by simp [probeTaken, if_pos h]⟩
    · obtain ⟨r, hr⟩ := ih (s.end_.getD el)
      exact ⟨r, by simp [probeTaken, if_neg h, hr]⟩

/-- With a positive cutoff, every consumed segment other than the last
ended strictly before the cutoff: the loop breaks at the first segment
whose end time reaches it. -/
theorem probeTaken_dropLast_lt (cutoff : ℚ) (hc : 0 < cutoff) :
    ∀ (l : List Segment) (el : ℚ) (s : Segment),
      s ∈ (probeTaken cutoff el l).dropLast →
      ∀ e : ℚ, s.end_ = some e → e < cutoff := by
  intro l
  induction l with
  | nil => intro el s hs; simp [probeTaken] at hs
  | cons a t ih =>
    intro el s hs e he
    by_cases h : (a.end_.getD el ≠ 0 ∧ cutoff ≤ a.end_.getD el)
    · simp [probeTaken, if_pos h] at hs
    · simp only [probeTaken, if_neg h] at hs
      cases hq : probeTaken cutoff (a.end_.getD el) t with
      | nil => rw [hq] at hs; simp at hs
      | cons b u =>
        rw [hq, List.dropLast_cons₂] at hs
        rcases List.mem_cons.mp hs with h1 | h2
        · subst h1
          push_neg at h
          have hgd : s.end_.getD el = e := by rw [he]; rfl
          by_cases h0 : e = 0
          · rw [h0]; exact hc
          · have := h (by rw [hgd]; exact h0)
            rw [hgd] at this
            exact this
        · exact ih (a.end_.getD el) s (by rw [hq]; exact h2) e he

/-- If no segment of the list carries a confidence value, the collected
value list is empty. -/
theorem filterMap_avg_none (segs : List Segment)
    (h : ∀ s ∈ segs, s.avg_logprob = none) :
    segs.filterMap (fun s => s.avg_logprob) = [] := by
  induction segs with
  | nil => rfl
  | cons a t ih =>
    rw [List.filterMap_cons, h a (List.mem_cons_self a t)]
    exact ih (fun s hs => h s (List.mem_cons_of_mem a hs))

/-- Dropping the unscored segments does not change the collected
confidence values. -/
theorem filterMap_avg_filter_isSome (segs : List Segment) :
    (segs.filter (fun s => s.avg_logprob.isSome)).filterMap
        (fun s => s.avg_logprob) =
      segs.filterMap (fun s => s.avg_logprob) := by
  induction segs with
  | nil => rfl
  | cons a t ih =>
    cases ha : a.avg_logprob with
    | none => simp [List.filter_cons, List.filterMap_cons, ha, ih]
    | some v => simp [List.filter_cons, List.filterMap_cons, ha, ih]

/-! ### Claim C1 -/

/-- C1: the decision step chooses the fallback width `max 2 fallback`
exactly when the confidence is strictly below the bad threshold and the
fast width `max 1 greedy` otherwise; at `bad - 0.01` it yields the
fallback width (which is at least 2), at exactly `bad` it yields the fast
width (the boundary is exclusive on the bad side), and there is no third
branch. -/
theorem C1_decide_branches (c bad : ℚ) (g f : ℤ) :
    (c < bad → DecisionPolicy.decide c bad g f = max 2 f ∧
      2 ≤ DecisionPolicy.decide c bad g f) ∧
    (bad ≤ c → DecisionPolicy.decide c bad g f = max 1 g) ∧
    DecisionPolicy.decide (bad - 1/100) bad g f = max 2 f ∧
    2 ≤ DecisionPolicy.decide (bad - 1/100) bad g f ∧
    DecisionPolicy.decide bad bad g f = max 1 g ∧
    (DecisionPolicy.decide c bad g f = max 2 f ∨
      DecisionPolicy.decide c bad g f = max 1 g) := by
  unfold DecisionPolicy.decide
  have hb : bad - 1/100 < bad := by linarith
  refine ⟨fun h => ⟨if_pos h, ?_⟩, fun h => if_neg (not_lt.mpr h),
    if_pos hb, ?_, if_neg (lt_irrefl bad), ?_⟩
  · rw [if_pos h]; exact le_max_left 2 f
  · rw [if_pos hb]; exact le_max_left 2 f
  · by_cases h : c < bad
    · exact Or.inl (if_pos h)
    · exact Or.inr (if_neg h)

/-- Witness for C1 at confidence -1 against the default thresholds. -/
theorem C1_witness :
    ((-1 : ℚ) < THRESH_BAD_DEF) ∧
    DecisionPolicy.decide (-1) THRESH_BAD_DEF GREEDY_BEAM_DEF FALLBACK_BEAM_DEF =
      max 2 FALLBACK_BEAM_DEF ∧
    2 ≤ DecisionPolicy.decide (-1) THRESH_BAD_DEF GREEDY_BEAM_DEF FALLBACK_BEAM_DEF := by
  have h := (C1_decide_branches (-1) THRESH_BAD_DEF GREEDY_BEAM_DEF
    FALLBACK_BEAM_DEF).1 (by norm_num [THRESH_BAD_DEF])
  exact ⟨by norm_num [THRESH_BAD_DEF], h.1, h.2⟩

/-! ### Claim C2 -/

/-- C2: when the probe consumes zero segments it returns the sentinel
confidence -1.5, and under the default bad threshold -0.90 that sentinel
selects the fallback (wider) search width. -/
theorem C2_empty_probe (model : Service) (wav lang : String) (vad : Bool)
    (ps : ℚ) (g f : ℤ)
    (h : probeTaken ps 0 (model wav lang vad GREEDY_BEAM_DEF) = []) :
    probe_confidence model wav lang vad ps = -(3/2) ∧
    THRESH_BAD_DEF = -(9/10) ∧
    DecisionPolicy.decide (-(3/2)) THRESH_BAD_DEF g f = max 2 f ∧
    2 ≤ DecisionPolicy.decide (-(3/2)) THRESH_BAD_DEF g f := by
  have h1 : probe_confidence model wav lang vad ps = -(3/2) := by
    unfold probe_confidence
    rw [h]
    rfl
  have h2 : DecisionPolicy.decide (-(3/2)) THRESH_BAD_DEF g f = max 2 f := by
    unfold DecisionPolicy.decide
    rw [if_pos (by norm_num [THRESH_BAD_DEF])]
  refine ⟨h1, rfl, h2, ?_⟩
  rw [h2]
  exact le_max_left 2 f

/-- Witness for C2: a service producing no segments at all. -/
theorem C2_witness :
    probeTaken PROBE_SECONDS_DEF 0 (svcEmpty sA sFr true GREEDY_BEAM_DEF) = [] ∧
    probe_confidence svcEmpty sA sFr true PROBE_SECONDS_DEF = -(3/2) ∧
    THRESH_BAD_DEF = -(9/10) ∧
    DecisionPolicy.decide (-(3/2)) THRESH_BAD_DEF GREEDY_BEAM_DEF FALLBACK_BEAM_DEF =
      max 2 FALLBACK_BEAM_DEF ∧
    2 ≤ DecisionPolicy.decide (-(3/2)) THRESH_BAD_DEF GREEDY_BEAM_DEF
      FALLBACK_BEAM_DEF := by
  have h := C2_empty_probe svcEmpty sA sFr true PROBE_SECONDS_DEF
    GREEDY_BEAM_DEF FALLBACK_BEAM_DEF (by decide)
  exact ⟨by decide, h.1, h.2.1, h.2.2.1, h.2.2.2⟩

/-! ### Claim C3 (corrected) -/

/-- C3 counterexample: at probe duration 0, the probe consumes the second
segment even though the first consumed segment's end time (0) already
reached the cutoff — the loop treats a zero elapsed time as falsy and
does not break there. -/
theorem C3_counterexample :
    probeTaken 0 0 [cexSeg0, cexSeg1] = [cexSeg0, cexSeg1] ∧
    cexSeg0.end_ = some 0 ∧
    ¬ (∀ s ∈ (probeTaken 0 0 [cexSeg0, cexSeg1]).dropLast,
        ∀ e : ℚ, s.end_ = some e → e < 0) := by
  refine ⟨by decide, by decide, fun hall => ?_⟩
  have h0 : cexSeg0 ∈ (probeTaken 0 0 [cexSeg0, cexSeg1]).dropLast := by decide
  have h1 := hall cexSeg0 h0 0 (by decide)
  exact absurd h1 (lt_irrefl 0)

/-- C3 (amended: for positive probe durations): the probe consumes a
front portion of the lazily produced sequence, one segment at a time in
order; every consumed segment except the last ended strictly before the
cutoff (so consumption stops as soon as a consumed segment's end time
reaches or exceeds `probeSeconds` and never continues past it), and the
mean confidence is computed over exactly the consumed segments. -/
theorem C3_probe_consumption (ps : ℚ) (hps : 0 < ps) (model : Service)
    (wav lang : String) (vad : Bool) :
    (∃ rest, probeTaken ps 0 (model wav lang vad GREEDY_BEAM_DEF) ++ rest =
      model wav lang vad GREEDY_BEAM_DEF) ∧
    (∀ s ∈ (probeTaken ps 0 (model wav lang vad GREEDY_BEAM_DEF)).dropLast,
      ∀ e : ℚ, s.end_ = some e → e < ps) ∧
    probe_confidence model wav lang vad ps =
      mean_logprob (probeTaken ps 0 (model wav lang vad GREEDY_BEAM_DEF)) :=
  ⟨probeTaken_front ps _ 0,
   fun s hs e he => probeTaken_dropLast_lt ps hps _ 0 s hs e he,
   rfl⟩

/-- Witness for C3 at probe duration 90 on a one-segment service. -/
theorem C3_witness :
    (0 : ℚ) < 90 ∧
    ((∃ rest, probeTaken 90 0 (svcOne sA sFr true GREEDY_BEAM_DEF) ++ rest =
        svcOne sA sFr true GREEDY_BEAM_DEF) ∧
     (∀ s ∈ (probeTaken 90 0 (svcOne sA sFr true GREEDY_BEAM_DEF)).dropLast,
        ∀ e : ℚ, s.end_ = some e → e < 90) ∧
     probe_confidence svcOne sA sFr true 90 =
       mean_logprob (probeTaken 90 0 (svcOne sA sFr true GREEDY_BEAM_DEF))) :=
  ⟨by norm_num, C3_probe_consumption 90 (by norm_num) svcOne sA sFr true⟩

/-! ### Claim C4 -/

/-- C4: the probe always invokes the transcription service at the minimal
(greedy) search width 1: `GREEDY_BEAM_DEF` is 1, the probe's result
depends only on the service's behaviour at width 1, and the per-file
loop's probe call records width 1 regardless of the configured greedy and
fallback widths for the full pass (the arguments are arbitrary here). -/
theorem C4_probe_minimal_width (model model2 : Service) (wav lang : String)
    (vad : Bool) (ps : ℚ) (meta : StationMap) (dateStr dir : String)
    (args : Args) (stem lang2 cc : String)
    (hagree : model wav lang vad 1 = model2 wav lang vad 1)
    (hm : meta stem = some (lang2, cc)) (hl : lang2.length ≠ 0) :
    GREEDY_BEAM_DEF = 1 ∧
    probe_confidence model wav lang vad ps =
      mean_logprob (probeTaken ps 0 (model wav lang vad 1)) ∧
    probe_confidence model wav lang vad ps =
      probe_confidence model2 wav lang vad ps ∧
    (processOne model meta dateStr dir args stem).head? =
      some (Effect.transcribeCall (dir ++ "/" ++ stem ++ ".wav") 1) := by
  refine ⟨rfl, rfl, ?_, ?_⟩
  · unfold probe_confidence
    have hg : GREEDY_BEAM_DEF = 1 := rfl
    rw [hg, hagree]
  · simp only [processOne, hm]
    rw [if_neg hl]
    rfl

/-- Witness for C4 on the one-segment service with arbitrary beam
arguments set to the defaults. -/
theorem C4_witness :
    GREEDY_BEAM_DEF = 1 ∧
    probe_confidence svcOne sA sFr true PROBE_SECONDS_DEF =
      mean_logprob (probeTaken PROBE_SECONDS_DEF 0 (svcOne sA sFr true 1)) ∧
    probe_confidence svcOne sA sFr true PROBE_SECONDS_DEF =
      probe_confidence svcOne sA sFr true PROBE_SECONDS_DEF ∧
    (processOne svcOne metaA sDate sDir argsDef sA).head? =
      some (Effect.transcribeCall (sDir ++ "/" ++ sA ++ ".wav") 1) :=
  C4_probe_minimal_width svcOne svcOne sA sFr true PROBE_SECONDS_DEF metaA
    sDate sDir argsDef sA sFr (String.mk []) rfl (by decide) (by decide)

/-! ### Claim C10 -/

/-- C10: if none of the consumed segments carries a confidence score the
probe returns the sentinel -1.5, and in general the mean confidence
ignores the segments without a score: it is unchanged when they are
dropped. -/
theorem C10_unscored (model : Service) (wav lang : String) (vad : Bool)
    (ps : ℚ) :
    ((∀ s ∈ probeTaken ps 0 (model wav lang vad GREEDY_BEAM_DEF),
        s.avg_logprob = none) →
      probe_confidence model wav lang vad ps = -(3/2)) ∧
    ∀ segs : List Segment,
      mean_logprob segs =
        mean_logprob (segs.filter (fun s => s.avg_logprob.isSome)) := by
  constructor
  · intro h
    unfold probe_confidence mean_logprob
    rw [filterMap_avg_none _ h]
    rfl
  · intro segs
    unfold mean_logprob
    rw [filterMap_avg_filter_isSome]

/-- Witness for C10: a probe that consumes one unscored segment. -/
theorem C10_witness :
    (∀ s ∈ probeTaken PROBE_SECONDS_DEF 0 (svcNoScore sA sFr true GREEDY_BEAM_DEF),
      s.avg_logprob = none) ∧
    probe_confidence svcNoScore sA sFr true PROBE_SECONDS_DEF = -(3/2) ∧
    mean_logprob [cexSeg0] =
      mean_logprob ([cexSeg0].filter (fun s => s.avg_logprob.isSome)) := by
  have h := C10_unscored svcNoScore sA sFr true PROBE_SECONDS_DEF
  exact ⟨by decide, h.1 (by decide), h.2 [cexSeg0]⟩


/-! ### Helper lemmas about station loading -/

/-- A line that does not parse to a record leaves the mapping unchanged. -/
theorem loadStep_none (m : StationMap) (raw : String)
    (h : parseRow raw = none) : loadStep m raw = m := by
  unfold loadStep
  rw [h]

/-- One load step preserves the presence of any key. -/
theorem loadStep_isSome (m : StationMap) (raw k : String)
    (h : (m k).isSome) : ((loadStep m raw) k).isSome := by
  unfold loadStep
  cases hp : parseRow raw with
  | none => exact h
  | some v =>
    obtain ⟨name, lang, cc⟩ := v
    by_cases hk : k = name
    · simp [hk]
    · simpa [hk] using h

/-- Folding load steps preserves the presence of any key. -/
theorem load_foldl_isSome (l : List String) :
    ∀ (m : StationMap) (k : String),
      (m k).isSome → ((List.foldl loadStep m l) k).isSome := by
  induction l with
  | nil => exact fun m k h => h
  | cons r t ih => exact fun m k h => ih (loadStep m r) k (loadStep_isSome m r k h)

/-- Folding load steps over lines none of which parse to a record named
`k` does not change the mapping at `k`. -/
theorem load_preserve_other (l : List String) :
    ∀ (m : StationMap) (k : String),
      (∀ r ∈ l, ∀ lg c, parseRow r ≠ some (k, lg, c)) →
      List.foldl loadStep m l k = m k := by
  induction l with
  | nil => exact fun m k _ => rfl
  | cons r t ih =>
    intro m k h
    have step : loadStep m r k = m k := by
      unfold loadStep
      cases hp : parseRow r with
      | none => rfl
      | some v =>
        obtain ⟨n, lg, c⟩ := v
        have hne : k ≠ n := by
          intro hk
          exact h r (List.mem_cons_self r t) lg c (by rw [hp, hk])
        simp [hne]
    rw [List.foldl_cons, ih (loadStep m r) k
      (fun r2 h2 lg c => h r2 (List.mem_cons_of_mem r h2) lg c), step]

/-- A line whose field list has fewer than 3 entries parses to no
record. -/
theorem parseRow_short (raw : String)
    (h : ((csvSplit (pyStrip raw)).map (fun c => pyStrip c)).length < 3) :
    parseRow raw = none := by
  unfold parseRow
  split
  · rfl
  · split
    · rfl
    · split
      · rename_i name url lang restCols heq
        rw [heq] at h
        simp at h
        omega
      · rfl

/-- A non-blank non-comment line with at least 3 fields and nonempty
name and language fields parses to a record keyed by its first field. -/
theorem parseRow_fields (raw name url lang : String) (restCols : List String)
    (hrow : (csvSplit (pyStrip raw)).map (fun c => pyStrip c) =
      name :: url :: lang :: restCols)
    (h0 : (pyStrip raw).length ≠ 0) (h1 : (pyStrip raw).data.head? ≠ some hashChar)
    (hn : name.length ≠ 0) (hl : lang.length ≠ 0) :
    ∃ c, parseRow raw = some (name, lang, c) := by
  unfold parseRow
  rw [if_neg h0, if_neg h1, hrow]
  dsimp only
  rw [if_neg (by simp [hn, hl])]
  exact ⟨_, rfl⟩

/-! ### Claim C6 (corrected) -/

/-- C6 counterexample: the row `"a,b,"` is non-blank, is not a comment,
and splits into exactly 3 comma-separated fields whose first field is
`"a"`, yet loading a file consisting of this row yields no entry keyed
`"a"`: the code additionally requires the name and language fields to be
nonempty, and here the language field is empty. -/
theorem C6_counterexample :
    (pyStrip c6Row).length ≠ 0 ∧
    (pyStrip c6Row).data.head? ≠ some hashChar ∧
    ((csvSplit (pyStrip c6Row)).map (fun c => pyStrip c)).length = 3 ∧
    ((csvSplit (pyStrip c6Row)).map (fun c => pyStrip c)).head? = some sLowA ∧
    load_station_meta [c6Row] sLowA = none := by
  refine ⟨by decide, by decide, by decide, by decide, by decide⟩

/-- C6 (amended): a non-blank non-comment row with at least 3
comma-separated fields whose trimmed first (name) and third (language)
fields are nonempty yields an entry keyed by the row's first field, and a
row with fewer than 3 fields contributes no entry at all: removing it
does not change the loaded mapping. -/
theorem C6_load_rows (pre post : List String) (raw : String) :
    (∀ name url lang restCols,
      (csvSplit (pyStrip raw)).map (fun c => pyStrip c) =
        name :: url :: lang :: restCols →
      (pyStrip raw).length ≠ 0 →
      (pyStrip raw).data.head? ≠ some hashChar →
      name.length ≠ 0 →
      lang.length ≠ 0 →
      (load_station_meta (pre ++ raw :: post) name).isSome) ∧
    (((csvSplit (pyStrip raw)).map (fun c => pyStrip c)).length < 3 →
      ∀ k, load_station_meta (pre ++ raw :: post) k =
        load_station_meta (pre ++ post) k) := by
  constructor
  · intro name url lang restCols hrow h0 h1 hn hl
    obtain ⟨c, hp⟩ := parseRow_fields raw name url lang restCols hrow h0 h1 hn hl
    unfold load_station_meta
    rw [List.foldl_append, List.foldl_cons]
    apply load_foldl_isSome
    unfold loadStep
    rw [hp]
    simp
  · intro hshort k
    unfold load_station_meta
    rw [List.foldl_append, List.foldl_cons, List.foldl_append,
      loadStep_none _ _ (parseRow_short raw hshort)]

/-- Witness for C6: the valid 3-field row `"x,u,aa"` produces an entry
keyed `"x"`, and removing the 2-field row `"a,b"` from a file leaves the
mapping unchanged. -/
theorem C6_witness :
    (load_station_meta [c7RowA] sX).isSome ∧
    load_station_meta [c6Short] sLowA = load_station_meta [] sLowA := by
  have h1 := (C6_load_rows [] [] c7RowA).1 sX (String.mk ['u'])
    (String.mk ['a', 'a']) [] (by decide) (by decide) (by decide)
    (by decide) (by decide)
  have h2 := (C6_load_rows [] [] c6Short).2 (by decide) sLowA
  exact ⟨h1, h2⟩

/-! ### Claim C7 -/

/-- C7: later lines overwrite earlier mapping entries, with no error on
duplicates: if a line parses to a record named `name` and no later line
parses to a record with the same name, the loaded mapping at `name` is
exactly that line's record — in particular, with duplicate station rows
the mapping reflects the last row seen. -/
theorem C7_last_wins (lines post : List String) (raw name lang cc : String)
    (h : parseRow raw = some (name, lang, cc))
    (hpost : ∀ r ∈ post, ∀ lg c, parseRow r ≠ some (name, lg, c)) :
    load_station_meta (lines ++ raw :: post) name = some (lang, cc) := by
  unfold load_station_meta
  rw [List.foldl_append, List.foldl_cons,
    load_preserve_other post _ name hpost]
  unfold loadStep
  rw [h]
  simp

/-- Witness for C7: the duplicate rows `"x,u,aa"` then `"x,u,bb"` load to
the second row's record. -/
theorem C7_witness :
    parseRow c7RowB = some (sX, String.mk ['b', 'b'], String.mk []) ∧
    load_station_meta [c7RowA, c7RowB] sX =
      some (String.mk ['b', 'b'], String.mk []) := by
  refine ⟨by decide, ?_⟩
  exact C7_last_wins [c7RowA] [] c7RowB sX (String.mk ['b', 'b'])
    (String.mk []) (by decide) (by simp)

/-! ### Helper lemmas about effects, paths and the filesystem -/

/-- A transcribe call does not change the filesystem. -/
theorem applyEffect_transcribe (fs : FileSystem) (p : String) (b : ℤ) :
    applyEffect fs (Effect.transcribeCall p b) = fs := rfl

/-- A progress print does not change the filesystem. -/
theorem applyEffect_logProgress (fs : FileSystem) (s : String) :
    applyEffect fs (Effect.logProgress s) = fs := rfl

/-- A saved print does not change the filesystem. -/
theorem applyEffect_logSaved (fs : FileSystem) (s : String) :
    applyEffect fs (Effect.logSaved s) = fs := rfl

/-- A deleted print does not change the filesystem. -/
theorem applyEffect_logDeleted (fs : FileSystem) (s : String) :
    applyEffect fs (Effect.logDeleted s) = fs := rfl

/-- A write overwrites the target path. -/
theorem applyEffect_write (fs : FileSystem) (p t : String) :
    applyEffect fs (Effect.write p t) = fun q => if q = p then some t else fs q := rfl

/-- A deletion removes the target path. -/
theorem applyEffect_delete (fs : FileSystem) (p : String) :
    applyEffect fs (Effect.delete p) = fun q => if q = p then none else fs q := rfl

/-- A transcribe call always executes and execution continues. -/
theorem execTrace_cons_transcribe (cw : String → String → Bool) (p : String)
    (b : ℤ) (rest : List Effect) :
    execTrace cw (Effect.transcribeCall p b :: rest) =
      Effect.transcribeCall p b :: execTrace cw rest := rfl

/-- A progress print always executes and execution continues. -/
theorem execTrace_cons_logProgress (cw : String → String → Bool) (s : String)
    (rest : List Effect) :
    execTrace cw (Effect.logProgress s :: rest) =
      Effect.logProgress s :: execTrace cw rest := rfl

/-- A write executes and continues only when it succeeds; a failing write
aborts the remaining effects. -/
theorem execTrace_cons_write (cw : String → String → Bool) (p t : String)
    (rest : List Effect) :
    execTrace cw (Effect.write p t :: rest) =
      if cw p t then Effect.write p t :: execTrace cw rest else [] := rfl

/-- Appending a string keeps the last character of a nonempty suffix. -/
theorem strLast_append (a b : String) (h : b.data ≠ []) :
    (a ++ b).data.getLast? = b.data.getLast? := by
  rw [String.data_append]
  exact List.getLast?_append_of_ne_nil _ h

/-- A path ending in `" - Radio.txt"` never coincides with a path ending
in `".wav"` (their last characters differ). -/
theorem txt_ne_wav (a nm b : String) :
    a ++ (nm ++ " - Radio.txt") ≠ b ++ ".wav" := by
  intro h
  have h2 : (a ++ (nm ++ " - Radio.txt")).data.getLast? =
      (b ++ ".wav").data.getLast? := by rw [h]
  have hx : (nm ++ " - Radio.txt").data ≠ [] := by
    rw [String.data_append]
    intro hh
    exact absurd (List.append_eq_nil.mp hh).2 (by decide)
  rw [strLast_append a _ hx, strLast_append nm _ (by decide),
    strLast_append b _ (by decide)] at h2
  exact absurd h2 (by decide)

/-- The transcript output path is never the source `.wav` path. -/
theorem outPath_ne_wavPath (dir d cc stem : String) :
    dir ++ "/" ++ out_name_of d cc stem ≠ wavPathOf dir stem := by
  unfold out_name_of wavPathOf
  exact txt_ne_wav (dir ++ "/")
    (d ++ " - " ++ (if cc.length = 0 then ccPlaceholder else cc) ++ " - " ++ stem)
    (dir ++ "/" ++ stem)

/-- A matched station reduces the per-file loop to its effect list. -/
theorem processOne_matched (model : Service) (meta : StationMap)
    (dateStr dir : String) (args : Args) (stem lang cc : String)
    (hm : meta stem = some (lang, cc)) (hl : lang.length ≠ 0) :
    processOne model meta dateStr dir args stem =
      matchedEffects model dateStr dir args stem lang cc := by
  simp only [processOne, hm]
  rw [if_neg hl]

/-! ### Claim C5 -/

/-- C5: a job whose station matched produces exactly one transcript write
and exactly one source deletion, the write occurs strictly before the
deletion in the effect order, and under sequential execution a failing
write aborts processing before the source deletion, so the source is
never deleted when the write fails. -/
theorem C5_write_before_delete (model : Service) (meta : StationMap)
    (dateStr dir : String) (args : Args) (stem lang cc : String)
    (hm : meta stem = some (lang, cc)) (hl : lang.length ≠ 0) :
    ∃ outPath text pre mid post,
      processOne model meta dateStr dir args stem =
        pre ++ Effect.write outPath text :: mid ++
          Effect.delete (wavPathOf dir stem) :: post ∧
      (processOne model meta dateStr dir args stem).countP Effect.isWrite = 1 ∧
      (processOne model meta dateStr dir args stem).countP Effect.isDelete = 1 ∧
      ∀ canWrite : String → String → Bool, canWrite outPath text = false →
        Effect.delete (wavPathOf dir stem) ∉
          execTrace canWrite (processOne model meta dateStr dir args stem) := by
  rw [processOne_matched model meta dateStr dir args stem lang cc hm hl]
  refine ⟨dir ++ "/" ++ out_name_of dateStr cc stem,
    text_of model (wavPathOf dir stem) lang (!args.no_vad) args,
    [Effect.transcribeCall (wavPathOf dir stem) GREEDY_BEAM_DEF,
     Effect.logProgress stem,
     Effect.transcribeCall (wavPathOf dir stem)
       (chosen_beam_of model (wavPathOf dir stem) lang (!args.no_vad) args)],
    [Effect.logSaved (out_name_of dateStr cc stem)],
    [Effect.logDeleted stem], rfl, ?_, ?_, ?_⟩
  · simp [matchedEffects, List.countP_cons, Effect.isWrite]
  · simp [matchedEffects, List.countP_cons, Effect.isDelete]
  · intro canWrite hcw
    unfold matchedEffects
    rw [execTrace_cons_transcribe, execTrace_cons_logProgress,
      execTrace_cons_transcribe, execTrace_cons_write, hcw]
    simp

/-- Witness for C5 on the one-segment service and the single-entry
station map. -/
theorem C5_witness :
    ∃ outPath text pre mid post,
      processOne svcOne metaA sDate sDir argsDef sA =
        pre ++ Effect.write outPath text :: mid ++
          Effect.delete (wavPathOf sDir sA) :: post ∧
      (processOne svcOne metaA sDate sDir argsDef sA).countP Effect.isWrite = 1 ∧
      (processOne svcOne metaA sDate sDir argsDef sA).countP Effect.isDelete = 1 ∧
      ∀ canWrite : String → String → Bool, canWrite outPath text = false →
        Effect.delete (wavPathOf sDir sA) ∉
          execTrace canWrite (processOne svcOne metaA sDate sDir argsDef sA) :=
  C5_write_before_delete svcOne metaA sDate sDir argsDef sA sFr
    (String.mk []) (by decide) (by decide)

/-! ### Claim C8 -/

/-- C8: a discovered file whose derived station name has no entry in the
station directory is skipped with a logged notice only — no transcribe
call, no transcript write, no deletion — and the batch continues with the
other files: its contribution to the whole run is exactly the skip
notice. -/
theorem C8_skip_unknown (model : Service) (meta : StationMap)
    (dateStr dir : String) (args : Args) (stem : String)
    (pre post : List String) (h : meta stem = none) :
    processOne model meta dateStr dir args stem = [Effect.logSkip stem] ∧
    (∀ p t, Effect.write p t ∉ processOne model meta dateStr dir args stem) ∧
    (∀ p, Effect.delete p ∉ processOne model meta dateStr dir args stem) ∧
    (∀ p b, Effect.transcribeCall p b ∉ processOne model meta dateStr dir args stem) ∧
    runAll model meta dateStr dir args (pre ++ stem :: post) =
      runAll model meta dateStr dir args pre ++
        Effect.logSkip stem :: runAll model meta dateStr dir args post := by
  have he : processOne model meta dateStr dir args stem = [Effect.logSkip stem] := by
    simp only [processOne, h]
  refine ⟨he, ?_, ?_, ?_, ?_⟩
  · intro p t; rw [he]; simp
  · intro p; rw [he]; simp
  · intro p b; rw [he]; simp
  · unfold runAll
    rw [List.map_append, List.map_cons, List.flatten_append, List.flatten_cons, he]
    rfl

/-- Witness for C8: the station `"x"` is absent from the single-entry
map. -/
theorem C8_witness :
    processOne svcOne metaA sDate sDir argsDef sX = [Effect.logSkip sX] ∧
    (∀ p t, Effect.write p t ∉ processOne svcOne metaA sDate sDir argsDef sX) ∧
    (∀ p, Effect.delete p ∉ processOne svcOne metaA sDate sDir argsDef sX) ∧
    (∀ p b, Effect.transcribeCall p b ∉ processOne svcOne metaA sDate sDir argsDef sX) ∧
    runAll svcOne metaA sDate sDir argsDef ([] ++ sX :: []) =
      runAll svcOne metaA sDate sDir argsDef [] ++
        Effect.logSkip sX :: runAll svcOne metaA sDate sDir argsDef [] :=
  C8_skip_unknown svcOne metaA sDate sDir argsDef sX [] [] (by decide)

/-! ### Claim C9 -/

/-- C9: the output filename embeds the date formatted in the fixed
reference timezone `Europe/Amsterdam` (two formatters agreeing there — in
particular differing in any host timezone — produce identical effects),
the country code or the placeholder `"XX"` when it is empty, and the
station name; the transcript is written to that name inside the source
directory, and applying the job's effects to any filesystem leaves the
transcript text at that path (overwrite semantics on collision). -/
theorem C9_output_name (model : Service) (meta : StationMap)
    (fmt fmt2 : String → String) (dir : String) (args : Args)
    (stem lang cc : String)
    (hm : meta stem = some (lang, cc)) (hl : lang.length ≠ 0)
    (htz : fmt tzAmsterdam = fmt2 tzAmsterdam) :
    mainDateStr fmt = fmt tzAmsterdam ∧
    out_name_of (mainDateStr fmt) cc stem =
      mainDateStr fmt ++ " - " ++
        (if cc.length = 0 then ccPlaceholder else cc) ++ " - " ++
        stem ++ " - Radio.txt" ∧
    processOne model meta (mainDateStr fmt) dir args stem =
      processOne model meta (mainDateStr fmt2) dir args stem ∧
    ∃ text,
      Effect.write (dir ++ "/" ++ out_name_of (mainDateStr fmt) cc stem) text ∈
        processOne model meta (mainDateStr fmt) dir args stem ∧
      ∀ fs : FileSystem,
        applyEffects fs (processOne model meta (mainDateStr fmt) dir args stem)
          (dir ++ "/" ++ out_name_of (mainDateStr fmt) cc stem) = some text := by
  have hd : mainDateStr fmt = mainDateStr fmt2 := htz
  have he := processOne_matched model meta (mainDateStr fmt) dir args stem lang cc hm hl
  refine ⟨rfl, rfl, by rw [hd], ?_⟩
  refine ⟨text_of model (wavPathOf dir stem) lang (!args.no_vad) args, ?_, ?_⟩
  · rw [he]
    unfold matchedEffects
    simp
  · intro fs
    rw [he]
    unfold matchedEffects applyEffects
    rw [List.foldl_cons, applyEffect_transcribe, List.foldl_cons,
      applyEffect_logProgress, List.foldl_cons, applyEffect_transcribe,
      List.foldl_cons, applyEffect_write, List.foldl_cons, applyEffect_logSaved,
      List.foldl_cons, applyEffect_delete, List.foldl_cons,
      applyEffect_logDeleted, List.foldl_nil]
    rw [if_neg (outPath_ne_wavPath dir (mainDateStr fmt) cc stem), if_pos rfl]

/-- Witness for C9 with a constant date formatter. -/
theorem C9_witness :
    mainDateStr fmtDateFix = fmtDateFix tzAmsterdam ∧
    out_name_of (mainDateStr fmtDateFix) (String.mk []) sA =
      mainDateStr fmtDateFix ++ " - " ++
        (if (String.mk []).length = 0 then ccPlaceholder else String.mk []) ++
        " - " ++ sA ++ " - Radio.txt" ∧
    processOne svcOne metaA (mainDateStr fmtDateFix) sDir argsDef sA =
      processOne svcOne metaA (mainDateStr fmtDateFix) sDir argsDef sA ∧
    ∃ text,
      Effect.write (sDir ++ "/" ++ out_name_of (mainDateStr fmtDateFix)
          (String.mk []) sA) text ∈
        processOne svcOne metaA (mainDateStr fmtDateFix) sDir argsDef sA ∧
      ∀ fs : FileSystem,
        applyEffects fs (processOne svcOne metaA (mainDateStr fmtDateFix) sDir argsDef sA)
          (sDir ++ "/" ++ out_name_of (mainDateStr fmtDateFix) (String.mk []) sA) =
          some text :=
  C9_output_name svcOne metaA fmtDateFix fmtDateFix sDir argsDef sA sFr
    (String.mk []) (by decide) (by decide) rfl
